import Mathlib

/-!
Verification development for the beacon SSH session manager.

The Go sources are shallowly embedded:
* `internal/ssh/client.go`  → namespace `Ssh`
* `internal/model/appstate.go` → namespace `Model`
* `cmd/beacon/main.go` → namespace `Main`

Go strings are modelled as `String` (`List Char` for the byte-level
pattern matcher, where character positions matter); external effects
(agent socket, file system, the remote host, transport close results,
wall-clock times) are passed in explicitly as environment records or
parameters.  Pointer mutation through `*ConnectionState` is rendered as
a functional update of the connection list at the selected index.
-/

set_option autoImplicit false

namespace Ssh

/-- Embeds `strings.ReplaceAll(pattern, "*", ".*")` from
`matchSSHConfigPattern` (client.go:255): every `*` character is replaced
by the two characters `.` `*`, all other characters are kept. -/
def expandStar : List Char → List Char
  | [] => []
  | c :: cs => (if c = '*' then ['.', '*'] else [c]) ++ expandStar cs

/-- Embeds `matchSSHConfigPattern` (client.go:246-273): exact match, else
single leading/trailing wildcard handling on the `ReplaceAll`-transformed
pattern, else no match.  `List.isPrefixOf`/`List.isSuffixOf` embed
`strings.HasPrefix`/`strings.HasSuffix`. -/
def matchSSHConfigPattern (pat host : List Char) : Bool :=
  if pat = host then
    true
  else if '*' ∈ pat then
    let p2 := expandStar pat
    if (['.', '*'] : List Char).isPrefixOf p2 then
      let suf := p2.drop 2
      suf.isSuffixOf host
    else if (['.', '*'] : List Char).isSuffixOf p2 then
      let pre := p2.take (p2.length - 2)
      pre.isPrefixOf host
    else
      false
  else
    false

/-- String-level wrapper for the matcher, used by the config-file scan. -/
def matchPatternS (pat host : String) : Bool :=
  matchSSHConfigPattern pat.data host.data

/-- Number of `*` characters in a pattern. -/
def starCount (p : List Char) : Nat :=
  (p.filter (fun c => c = '*')).length

/-- A pattern has an interior or multiple wildcards: at least two `*`
characters, or a single `*` that is neither the first nor the last
character. -/
def interiorOrMultiStar (p : List Char) : Prop :=
  2 ≤ starCount p ∨
    (starCount p = 1 ∧ p.head? ≠ some '*' ∧ p.getLast? ≠ some '*')

instance (p : List Char) : Decidable (interiorOrMultiStar p) := by
  unfold interiorOrMultiStar
  infer_instance

/-- A private-key signer; the key material itself is uninterpreted and
identified by a string. -/
abbrev Signer := String

/-- An `ssh.AuthMethod`: the only constructor used by client.go is
`ssh.PublicKeys(signers...)`. -/
inductive AuthMethod where
  | publicKeys (signers : List Signer)
  deriving DecidableEq, Repr

/-- The external environment consulted by the credential-resolution code:
process environment, SSH agent, home directory and file system.  Each
field captures the outcome of one external call. -/
structure AuthEnv where
  /-- `os.Getenv("SSH_AUTH_SOCK")`; the empty string means unset. -/
  sshAuthSock : String
  /-- Outcome of dialing the agent socket and calling `Signers()`:
  `none` models a dial or enumeration failure. -/
  agentSigners : String → Option (List Signer)
  /-- `os.UserHomeDir()`; `none` models failure. -/
  homeDir : Option String
  /-- `os.ReadFile` on a path; `none` models a read failure. -/
  readFile : String → Option String
  /-- `ssh.ParsePrivateKey` on file contents; `none` models a parse
  failure. -/
  parseKey : String → Option Signer
  /-- `os.Open` + line scan of a file; `none` models an open failure. -/
  openLines : String → Option (List String)

/-- Models `filepath.Join` for the slash-free components used by
client.go. -/
def joinPath (a b : String) : String :=
  a ++ "/" ++ b

/-- Embeds `getAgentMethods` (client.go:277-296): empty socket address,
dial failure, enumeration failure or zero signers all yield no methods;
otherwise a single `PublicKeys` method holding all agent signers. -/
def getAgentMethods (env : AuthEnv) : List AuthMethod :=
  if env.sshAuthSock = "" then []
  else
    match env.agentSigners env.sshAuthSock with
    | none => []
    | some signers => if signers.length = 0 then [] else [AuthMethod.publicKeys signers]

/-- Embeds `expandPath` (client.go:148-160): expands a leading `~/`
against the home directory; `none` models the error return when the home
directory cannot be resolved. -/
def expandPath (env : AuthEnv) (path : String) : Option String :=
  if path = "" then some path
  else if path.startsWith "~/" then
    env.homeDir.map (fun home => joinPath home (path.drop 2))
  else some path

/-- Embeds `loadPrivateKey` (client.go:164-181): expand, read, parse;
`none` models any of the three error returns. -/
def loadPrivateKey (env : AuthEnv) (keyPath : String) : Option Signer :=
  (expandPath env keyPath).bind fun p => (env.readFile p).bind env.parseKey

/-- Embeds `getDefaultKeyPaths` (client.go:184-194). -/
def getDefaultKeyPaths (env : AuthEnv) : List String :=
  match env.homeDir with
  | none => []
  | some home =>
      [joinPath (joinPath home ".ssh") "id_rsa",
       joinPath (joinPath home ".ssh") "id_ed25519",
       joinPath (joinPath home ".ssh") "id_ecdsa"]

/-- Embeds the scanner loop of `getSSHConfigKeyPaths`
(client.go:214-239): tracks whether the current `Host` block matches and
collects (tilde-expanded) `IdentityFile` paths of matching blocks. -/
def sshConfigScan (home host : String) : List String → Bool → List String
  | [], _ => []
  | l :: ls, hostMatches =>
    let line := l.trim
    if line = "" ∨ line.startsWith "#" then
      sshConfigScan home host ls hostMatches
    else if line.startsWith "Host " then
      let currentHost := line.drop 5
      sshConfigScan home host ls (matchPatternS currentHost host)
    else if hostMatches ∧ line.startsWith "IdentityFile " then
      let kp := line.drop 13
      let kp := if kp.startsWith "~" then joinPath home (kp.drop 1) else kp
      kp :: sshConfigScan home host ls hostMatches
    else
      sshConfigScan home host ls hostMatches

/-- Embeds `getSSHConfigKeyPaths` (client.go:197-242): missing home
directory or unopenable `~/.ssh/config` yields no paths. -/
def getSSHConfigKeyPaths (env : AuthEnv) (host : String) : List String :=
  match env.homeDir with
  | none => []
  | some home =>
      match env.openLines (joinPath (joinPath home ".ssh") "config") with
      | none => []
      | some lines => sshConfigScan home host lines false

/-- Embeds the `for _, path := range ...` append loops of
`createAuthMethods` (client.go:315-328). -/
def keyMethods (env : AuthEnv) (paths : List String) (acc : List AuthMethod) : List AuthMethod :=
  paths.foldl
    (fun ms path =>
      match loadPrivateKey env path with
      | some signer => ms ++ [AuthMethod.publicKeys [signer]]
      | none => ms)
    acc

/-- Embeds `createAuthMethods` (client.go:299-336): agent methods, then
the explicit key path, then SSH-config identity files, then default key
paths; errors only when the accumulated list is empty. -/
def createAuthMethods (env : AuthEnv) (keyPath host : String) :
    Except String (List AuthMethod) :=
  let a1 : List AuthMethod := [] ++ getAgentMethods env
  let a2 :=
    if keyPath ≠ "" then
      match loadPrivateKey env keyPath with
      | some signer => a1 ++ [AuthMethod.publicKeys [signer]]
      | none => a1
    else a1
  let a3 := keyMethods env (getSSHConfigKeyPaths env host) a2
  let a4 := keyMethods env (getDefaultKeyPaths env) a3
  if a4.length = 0 then Except.error "no valid authentication methods found"
  else Except.ok a4

/-- Step 1 of the resolution chain, as a standalone producer. -/
def agentStep (env : AuthEnv) : List AuthMethod :=
  getAgentMethods env

/-- Step 2 of the resolution chain: the explicit key path, if non-empty
and loadable. -/
def explicitStep (env : AuthEnv) (keyPath : String) : List AuthMethod :=
  if keyPath ≠ "" then
    ((loadPrivateKey env keyPath).map (fun s => AuthMethod.publicKeys [s])).toList
  else []

/-- Step 3 of the resolution chain: loadable identity files from matching
SSH-config blocks. -/
def configStep (env : AuthEnv) (host : String) : List AuthMethod :=
  (getSSHConfigKeyPaths env host).filterMap
    (fun p => (loadPrivateKey env p).map (fun s => AuthMethod.publicKeys [s]))

/-- Step 4 of the resolution chain: loadable default keys. -/
def defaultStep (env : AuthEnv) : List AuthMethod :=
  (getDefaultKeyPaths env).filterMap
    (fun p => (loadPrivateKey env p).map (fun s => AuthMethod.publicKeys [s]))

/-- The transport-level state of `SSHClientWrapper` (client.go:26-32):
whether the `client` pointer is non-nil and the `connected` flag.  The
`config`, `host` and `LastActive` fields play no role in the embedded
operations and are elided. -/
structure SSHClientWrapper where
  hasClient : Bool
  connected : Bool
  deriving DecidableEq, Repr

/-- Embeds `Disconnect` (client.go:64-73).  `closeErr` is the outcome of
the external `s.client.Close()` call (`none` = success).  Returns the
receiver state after the call together with the returned error: on a
close failure the method returns early, so `connected` is left
unchanged; the `client` field is never cleared. -/
def Disconnect (s : SSHClientWrapper) (closeErr : Option String) :
    SSHClientWrapper × Option String :=
  if s.hasClient then
    match closeErr with
    | some e => (s, some ("failed to close SSH connection: " ++ e))
    | none => ({ s with connected := false }, none)
  else (s, none)

/-- The outcome of the external session calls made by `ExecuteCommand`:
session creation, then `session.Run` with the captured output buffers. -/
inductive RemoteOutcome where
  /-- `client.NewSession()` failed. -/
  | noSession
  /-- `session.Run` returned nil (remote exit code 0). -/
  | ranOk (stdout stderr : String)
  /-- `session.Run` returned an `*ssh.ExitError` with this exit status. -/
  | ranExit (code : Int) (stdout stderr : String)
  /-- `session.Run` failed with a non-exit (transport) error. -/
  | ranFail (stdout stderr : String)
  deriving DecidableEq, Repr

/-- Embeds `CommandResult` (client.go:18-24); the `Error` field is always
nil in every returned value, so it is elided.  `Duration` is the
externally measured wall-clock time. -/
structure CommandResult where
  stdout : String
  stderr : String
  exitCode : Int
  duration : Nat
  deriving DecidableEq, Repr

/-- Embeds `ExecuteCommand` (client.go:97-145): precondition check on
`connected`/`client`, then session creation, then `Run`; an
`*ssh.ExitError` is converted into a successful result carrying the exit
status, any other `Run` failure is an error.  `dur` is the external
`time.Since(start)` measurement. -/
def ExecuteCommand (s : SSHClientWrapper) (remote : RemoteOutcome) (dur : Nat) :
    Except String CommandResult :=
  if ¬ s.connected ∨ ¬ s.hasClient then
    Except.error "not connected to server"
  else
    match remote with
    | RemoteOutcome.noSession => Except.error "failed to create session"
    | RemoteOutcome.ranOk out errOut =>
        Except.ok { stdout := out, stderr := errOut, exitCode := 0, duration := dur }
    | RemoteOutcome.ranExit code out errOut =>
        Except.ok { stdout := out, stderr := errOut, exitCode := code, duration := dur }
    | RemoteOutcome.ranFail _ _ => Except.error "command execution failed"

end Ssh

namespace Model

/-- Embeds `Connection` (appstate.go:15-21). -/
structure Connection where
  alias_ : String
  host : String
  port : Int
  user : String
  keyPath : String
  deriving DecidableEq, Repr

/-- Embeds `CommandExecution` (appstate.go:24-32); timestamps and
durations are abstract clock readings. -/
structure CommandExecution where
  command : String
  timestamp : Nat
  exitCode : Int
  stdout : String
  stderr : String
  duration : Nat
  completed : Bool
  deriving DecidableEq, Repr

/-- Embeds `CommandHistory` (appstate.go:35-38); `MaxSize` is always the
non-negative 1000 in the source, so it is a `Nat`. -/
structure CommandHistory where
  commands : List String
  maxSize : Nat
  deriving DecidableEq, Repr

/-- Embeds `ConnectionStatus` (appstate.go:40-47). -/
inductive ConnectionStatus where
  | disconnected
  | connecting
  | connected
  | error
  deriving DecidableEq, Repr

/-- Embeds `ConnectionState` (appstate.go:50-59); errors are carried as
their message strings. -/
structure ConnectionState where
  connection : Connection
  client : Option Ssh.SSHClientWrapper
  status : ConnectionStatus
  lastActive : Nat
  lastError : Option String
  output : List String
  executions : List CommandExecution
  currentExec : Option CommandExecution
  deriving DecidableEq, Repr

/-- Embeds `AppState` (appstate.go:68-74); `configCommandHistory` is the
`Config.CommandHistory` mirror that `AddToHistory` keeps in sync, the
rest of `Config` is config-file I/O glue and is elided. -/
structure AppState where
  connections : List ConnectionState
  selectedIndex : Int
  commandHistory : CommandHistory
  configCommandHistory : List String
  outputScrollOffset : Int
  deriving DecidableEq, Repr

/-- Embeds `GetSelected` (appstate.go:213-218). -/
def AppState.getSelected (app : AppState) : Option ConnectionState :=
  if app.selectedIndex < 0 ∨ app.selectedIndex ≥ (app.connections.length : Int) then none
  else app.connections.get? app.selectedIndex.toNat

/-- Embeds `AddToHistory` (appstate.go:237-258): skip empty commands and
adjacent duplicates; append; evict the single oldest entry when the
bound is exceeded; mirror into `Config.CommandHistory`. -/
def AddToHistory (app : AppState) (cmd : String) : AppState :=
  if cmd = "" then app
  else if app.commandHistory.commands.getLast? = some cmd then app
  else
    let cs := app.commandHistory.commands ++ [cmd]
    if cs.length > app.commandHistory.maxSize then
      { app with
          commandHistory := { app.commandHistory with commands := cs.drop 1 },
          configCommandHistory := cs.drop 1 }
    else
      { app with
          commandHistory := { app.commandHistory with commands := cs },
          configCommandHistory := cs }

/-- Embeds `GetHistoryItem` (appstate.go:261-268): bounds check, then
lookup at the reversed index `len - 1 - index`. -/
def GetHistoryItem (app : AppState) (index : Int) : String :=
  if index < 0 ∨ index ≥ (app.commandHistory.commands.length : Int) then ""
  else
    (app.commandHistory.commands.get?
      (app.commandHistory.commands.length - 1 - index.toNat)).getD ""

/-- Embeds `HistorySize` (appstate.go:271-273). -/
def HistorySize (app : AppState) : Nat :=
  app.commandHistory.commands.length

/-- Embeds `strings.Split(s, "\n")` as used by `ScrollOutputUp`. -/
def splitOnNewline (s : String) : List String :=
  s.splitOn "\n"

/-- Per-execution term of the line-count estimate in `ScrollOutputUp`
(appstate.go:283-289): 3 structural lines plus stdout lines plus, when
stderr is non-empty, stderr lines and a separator. -/
def execRenderLines (e : CommandExecution) : Nat :=
  3 + (splitOnNewline e.stdout).length +
    (if e.stderr ≠ "" then (splitOnNewline e.stderr).length + 1 else 0)

/-- The `totalLines` accumulation loop of `ScrollOutputUp`. -/
def estimatedTotalLines (execs : List CommandExecution) : Nat :=
  execs.foldl (fun acc e => acc + execRenderLines e) 0

/-- Embeds `ScrollOutputUp` (appstate.go:276-294): add the delta, then
clamp to the estimated total — but only when a connection is selected
and its execution log is non-empty. -/
def ScrollOutputUp (app : AppState) (lines : Int) : AppState :=
  let app1 := { app with outputScrollOffset := app.outputScrollOffset + lines }
  match app1.getSelected with
  | some sel =>
      if sel.executions.length > 0 then
        let totalLines := estimatedTotalLines sel.executions
        if app1.outputScrollOffset > (totalLines : Int) then
          { app1 with outputScrollOffset := (totalLines : Int) }
        else app1
      else app1
  | none => app1

/-- Embeds `ScrollOutputDown` (appstate.go:297-302): subtract the delta
and clamp below at 0. -/
def ScrollOutputDown (app : AppState) (lines : Int) : AppState :=
  let app1 := { app with outputScrollOffset := app.outputScrollOffset - lines }
  if app1.outputScrollOffset < 0 then { app1 with outputScrollOffset := 0 }
  else app1

end Model

namespace Main

/-- Embeds `ViewMode` (main.go:15-22). -/
inductive ViewMode where
  | normal
  | addForm
  | commandInput
  | commandExecuting
  deriving DecidableEq, Repr

/-- Embeds the fields of `TUIModel` (main.go:86-96) that the message
handlers and `executeCommand` touch; window size, the add-connection
form, the command input line and the status timeout are rendering/input
glue and are elided (`setStatus` is kept as the message update). -/
structure TUIModel where
  appState : Model.AppState
  mode : ViewMode
  statusMessage : String
  deriving DecidableEq, Repr

/-- Embeds `connectResultMsg` (main.go:556-560). -/
structure ConnectResultMsg where
  index : Int
  success : Bool
  err : Option String
  deriving DecidableEq, Repr

/-- Embeds `commandResultMsg` (main.go:562-566); both pointer fields are
options. -/
structure CommandResultMsg where
  index : Int
  execution : Option Model.CommandExecution
  err : Option String
  deriving DecidableEq, Repr

/-- Functional rendering of the Go pointer update `cs := ...; cs.X = v`:
replace the connection at `i`. -/
def setConn (m : TUIModel) (i : Nat) (cs : Model.ConnectionState) : TUIModel :=
  { m with appState := { m.appState with connections := m.appState.connections.set i cs } }

/-- Embeds the `connectResultMsg` case of `Update` (main.go:135-147):
in-range messages set the connection's status/error/last-active;
out-of-range messages are dropped.  `now` is the external `time.Now()`
reading. -/
def applyConnectResultMsg (m : TUIModel) (msg : ConnectResultMsg) (now : Nat) : TUIModel :=
  if 0 ≤ msg.index ∧ msg.index < (m.appState.connections.length : Int) then
    match m.appState.connections.get? msg.index.toNat with
    | some cs =>
        let cs' :=
          if msg.success then
            { cs with status := Model.ConnectionStatus.connected, lastError := none,
                      lastActive := now }
          else
            { cs with status := Model.ConnectionStatus.error, lastError := msg.err }
        setConn m msg.index.toNat cs'
    | none => m
  else m

/-- The `"Command completed"` / `"Command exit N"` status text of the
`commandResultMsg` success branch (main.go:158-162).  The source
dereferences `msg.execution` here; it is non-nil for every message the
success branch can receive (see `executeCommand`), and the `none` arm is
the unreachable-case default. -/
def exitStatusText (execution : Option Model.CommandExecution) : String :=
  match execution with
  | some e => if e.exitCode ≠ 0 then "Command exit " ++ toString e.exitCode else "Command completed"
  | none => "Command completed"

/-- Embeds the `commandResultMsg` case of `Update` (main.go:148-166):
in-range error messages set status `Error`, record the error and show an
error status line; in-range success messages append the execution to the
log and show a completion status line; both clear `CurrentExec`; the
mode returns to normal in every case, including out-of-range indices. -/
def applyCommandResultMsg (m : TUIModel) (msg : CommandResultMsg) : TUIModel :=
  let m1 :=
    if 0 ≤ msg.index ∧ msg.index < (m.appState.connections.length : Int) then
      match m.appState.connections.get? msg.index.toNat with
      | some cs =>
          match msg.err with
          | some e =>
              let cs' := { cs with status := Model.ConnectionStatus.error,
                                   lastError := some e, currentExec := none }
              { setConn m msg.index.toNat cs' with statusMessage := "Error: " ++ e }
          | none =>
              let cs' := { cs with executions := cs.executions ++ msg.execution.toList,
                                   currentExec := none }
              { setConn m msg.index.toNat cs' with statusMessage := exitStatusText msg.execution }
      | none => m
    else m
  { m1 with mode := ViewMode.normal }

/-- The incomplete `CommandExecution` recorded when a run starts
(main.go:430-434). -/
def pendingExec (cmd : String) (now : Nat) : Model.CommandExecution :=
  { command := cmd, timestamp := now, exitCode := 0, stdout := "",
    stderr := "", duration := 0, completed := false }

/-- The completed `CommandExecution` built from a command result
(main.go:446-454). -/
def completedExec (cmd : String) (now2 : Nat) (r : Ssh.CommandResult) :
    Model.CommandExecution :=
  { command := cmd, timestamp := now2, exitCode := r.exitCode, stdout := r.stdout,
    stderr := r.stderr, duration := r.duration, completed := true }

/-- Embeds `executeCommand` (main.go:416-461) combined with the later
delivery of the closure's message: the synchronous part marks
`CurrentExec` on the selected connection, the asynchronous part calls
`ExecuteCommand` against the external `remote` outcome and packages the
result message.  `now` is the `time.Now()` reading for the pending
execution, `now2`/`dur` are the completion-side readings. -/
def executeCommand (m : TUIModel) (cmd : String) (remote : Ssh.RemoteOutcome)
    (now now2 dur : Nat) : TUIModel × CommandResultMsg :=
  match m.appState.getSelected with
  | none =>
      (m, { index := m.appState.selectedIndex, execution := none,
            err := some "no active connection" })
  | some sel =>
      match sel.client with
      | none =>
          (m, { index := m.appState.selectedIndex, execution := none,
                err := some "no active connection" })
      | some cl =>
          let index := m.appState.selectedIndex
          let m' := setConn m index.toNat { sel with currentExec := some (pendingExec cmd now) }
          match Ssh.ExecuteCommand cl remote dur with
          | Except.error e =>
              (m', { index := index, execution := none, err := some e })
          | Except.ok r =>
              (m', { index := index, execution := some (completedExec cmd now2 r),
                     err := none })

/-- Embeds the `case "c"` branch of `handleKeyPress` (main.go:326-337).
The boolean records whether an asynchronous connect attempt was started
(a non-nil `tea.Cmd` was returned). -/
def handleConnectKey (m : TUIModel) : TUIModel × Bool :=
  if m.mode = ViewMode.normal then
    match m.appState.getSelected with
    | none => (m, false)
    | some cs =>
        if cs.status = Model.ConnectionStatus.connecting ∨
            cs.status = Model.ConnectionStatus.connected then
          (m, false)
        else
          (setConn m m.appState.selectedIndex.toNat
            { cs with status := Model.ConnectionStatus.connecting }, true)
  else (m, false)

end Main

/-- A throwaway persisted connection used by concrete test states. -/
def fixtureConnection : Model.Connection :=
  { alias_ := "db1", host := "10.0.0.5", port := 22, user := "ops", keyPath := "" }

/-- A connection state with the given status and client handle and empty
logs. -/
def fixtureState (st : Model.ConnectionStatus) (cl : Option Ssh.SSHClientWrapper) :
    Model.ConnectionState :=
  { connection := fixtureConnection, client := cl, status := st, lastActive := 0,
    lastError := none, output := [], executions := [], currentExec := none }

/-- An app state selecting connection 0, with the given connections and
history. -/
def fixtureApp (conns : List Model.ConnectionState) (hist : Model.CommandHistory) :
    Model.AppState :=
  { connections := conns, selectedIndex := 0, commandHistory := hist,
    configCommandHistory := hist.commands, outputScrollOffset := 0 }

/-- A TUI model in normal mode over the given connections. -/
def fixtureModelFor (conns : List Model.ConnectionState) : Main.TUIModel :=
  { appState := fixtureApp conns { commands := [], maxSize := 1000 },
    mode := Main.ViewMode.normal, statusMessage := "" }

/-- An app state with an empty history bounded at 2. -/
def fixtureHistApp : Model.AppState :=
  fixtureApp [] { commands := [], maxSize := 2 }

/-- An app state with history entries x, y. -/
def fixtureHistApp2 : Model.AppState :=
  fixtureApp [] { commands := ["x", "y"], maxSize := 1000 }

/-- A completed execution record with one line of output. -/
def fixtureExec : Model.CommandExecution :=
  { command := "ls", timestamp := 0, exitCode := 0, stdout := "file", stderr := "",
    duration := 1, completed := true }

/-- A connected state whose execution log holds one record. -/
def fixtureStateWithLog : Model.ConnectionState :=
  { fixtureState Model.ConnectionStatus.connected none with executions := [fixtureExec] }

/-- An app state selecting a connection with a non-empty log. -/
def fixtureScrollApp : Model.AppState :=
  fixtureApp [fixtureStateWithLog] { commands := [], maxSize := 1000 }

/-- An auth environment in which every external lookup fails. -/
def fixtureEmptyEnv : Ssh.AuthEnv :=
  { sshAuthSock := "", agentSigners := fun _ => none, homeDir := none,
    readFile := fun _ => none, parseKey := fun _ => none, openLines := fun _ => none }

-- sanity checks on the matcher
example : Ssh.matchSSHConfigPattern "*.example.com".data "a.example.com".data = true := by decide
example : Ssh.matchSSHConfigPattern "*.example.com".data "example.com".data = false := by decide
example : Ssh.matchSSHConfigPattern "192.168.1.*".data "192.168.1.42".data = true := by decide
example : Ssh.matchSSHConfigPattern "host1".data "host1".data = true := by decide
example : Ssh.matchSSHConfigPattern "host1".data "host2".data = false := by decide
example : Ssh.matchSSHConfigPattern "a*b".data "a*b".data = true := by decide
example : Ssh.matchSSHConfigPattern "a*b".data "aXb".data = false := by decide
example : Ssh.matchSSHConfigPattern "*".data "anything".data = true := by decide

/-! ## List helpers -/

/-- Setting an in-range index makes that element the one read back. -/
theorem list_get?_set_self {α : Type} (l : List α) (i : Nat) (a : α) (h : i < l.length) :
    (l.set i a).get? i = some a := by
  induction l generalizing i with
  | nil => simp at h
  | cons b bs ih =>
    cases i with
    | zero => rfl
    | succ n => simpa using ih n (Nat.lt_of_succ_lt_succ (by simpa using h))

/-- Setting the same index twice keeps only the second write. -/
theorem list_set_set_self {α : Type} (l : List α) (i : Nat) (a b : α) :
    (l.set i a).set i b = l.set i b := by
  induction l generalizing i with
  | nil => rfl
  | cons c cs ih =>
    cases i with
    | zero => rfl
    | succ n => simp [ih n]

/-- Dropping one element of a concatenation with a non-empty left part. -/
theorem list_drop_one_append {α : Type} (l : List α) (c : α) (h : l ≠ []) :
    (l ++ [c]).drop 1 = l.drop 1 ++ [c] := by
  cases l with
  | nil => exact absurd rfl h
  | cons a as => rfl

/-! ## Claim C8: re-entrant connect is a no-op -/

/-- C8: for every connection whose status is already Connecting or
Connected, a second connect request is a no-op — the model (hence every
connection's status, transport handle and other fields) is unchanged and
no new connect attempt is started. -/
theorem claim_C8_connect_reentrancy (m : Main.TUIModel) (cs : Model.ConnectionState)
    (hsel : m.appState.getSelected = some cs)
    (hst : cs.status = Model.ConnectionStatus.connecting ∨
      cs.status = Model.ConnectionStatus.connected) :
    Main.handleConnectKey m = (m, false) := by
  unfold Main.handleConnectKey
  by_cases hm : m.mode = Main.ViewMode.normal
  · simp only [hm, if_pos, hsel]
    rw [if_pos hst]
  · rw [if_neg hm]

/-- C8 witness: a concrete connecting connection, where the connect key
changes nothing. -/
theorem claim_C8_witness :
    Main.handleConnectKey
        (fixtureModelFor [fixtureState Model.ConnectionStatus.connecting none])
      = (fixtureModelFor [fixtureState Model.ConnectionStatus.connecting none], false) :=
  claim_C8_connect_reentrancy _ (fixtureState Model.ConnectionStatus.connecting none)
    (by decide) (Or.inl rfl)

/-! ## Claim C9: Disconnect -/

/-- C9 counterexample: after a successful disconnect the transport handle
is still present, so a second `Disconnect` re-closes it; when that close
fails (as closing an already-closed transport does), the second call
returns an error — refuting \"calling it a second time succeeds with the
same resulting state and no error\". -/
theorem claim_C9_counterexample :
    (Ssh.Disconnect { hasClient := true, connected := true } none).2 = none ∧
    (Ssh.Disconnect (Ssh.Disconnect { hasClient := true, connected := true } none).1
        (some "use of closed network connection")).2 ≠ none := by
  exact ⟨rfl, by decide⟩

/-- C9 (amended): `Disconnect` is callable in every state.  With no
transport it returns no error and leaves the handle unchanged; with a
transport and a successful close it marks the session not connected and
returns no error; a failing close returns the error and leaves the
`connected` flag unchanged; and it is idempotent provided each close
reports success — the second call then returns the same state and no
error. -/
theorem claim_C9_disconnect_amended (s : Ssh.SSHClientWrapper) (e : String) :
    (s.hasClient = false → ∀ ce, Ssh.Disconnect s ce = (s, none)) ∧
    (s.hasClient = true →
      Ssh.Disconnect s none = ({ s with connected := false }, none)) ∧
    (s.hasClient = true →
      Ssh.Disconnect s (some e) = (s, some ("failed to close SSH connection: " ++ e))) ∧
    Ssh.Disconnect (Ssh.Disconnect s none).1 none = ((Ssh.Disconnect s none).1, none) := by
  obtain ⟨hc, co⟩ := s
  cases hc <;>
    refine ⟨fun h ce => ?_, fun h => ?_, fun h => ?_, ?_⟩ <;>
      first
        | (cases ce <;> rfl)
        | rfl
        | simp at h

/-- C9 witness: the amended theorem evaluated on a live handle. -/
theorem claim_C9_witness :
    Ssh.Disconnect { hasClient := true, connected := true } none
      = ({ hasClient := true, connected := false }, none) :=
  (claim_C9_disconnect_amended { hasClient := true, connected := true } "x").2.1 rfl

/-! ## Claim C10: stale completion messages -/

/-- C10: a connect-result or command-result message whose connection
index is out of range for the current connection list leaves every
connection's state (status, last error, execution log, current-execution
marker) unchanged. -/
theorem claim_C10_stale_messages (m : Main.TUIModel) (mc : Main.ConnectResultMsg)
    (mr : Main.CommandResultMsg) (now : Nat)
    (hc : mc.index < 0 ∨ (m.appState.connections.length : Int) ≤ mc.index)
    (hr : mr.index < 0 ∨ (m.appState.connections.length : Int) ≤ mr.index) :
    (Main.applyConnectResultMsg m mc now).appState.connections = m.appState.connections ∧
    (Main.applyCommandResultMsg m mr).appState.connections = m.appState.connections := by
  have hc' : ¬ (0 ≤ mc.index ∧ mc.index < (m.appState.connections.length : Int)) := by
    rcases hc with h | h <;> omega
  have hr' : ¬ (0 ≤ mr.index ∧ mr.index < (m.appState.connections.length : Int)) := by
    rcases hr with h | h <;> omega
  constructor
  · rw [Main.applyConnectResultMsg, if_neg hc']
  · rw [Main.applyCommandResultMsg, if_neg hr']

/-- C10 witness: a message for index 5 dropped on a one-connection
model. -/
theorem claim_C10_witness :
    (Main.applyCommandResultMsg
        (fixtureModelFor [fixtureState Model.ConnectionStatus.connected none])
        { index := 5, execution := none, err := some "late" }).appState.connections
      = (fixtureModelFor [fixtureState Model.ConnectionStatus.connected none]).appState.connections :=
  (claim_C10_stale_messages _ { index := 5, success := false, err := none }
    { index := 5, execution := none, err := some "late" } 0
    (by decide) (by decide)).2

/-! ## History helpers -/

/-- The last entry read positionally. -/
theorem list_getLast?_eq_get? {α : Type} : ∀ l : List α, l.getLast? = l.get? (l.length - 1)
  | [] => rfl
  | [_] => rfl
  | a :: b :: l => by
    rw [List.getLast?_cons_cons, list_getLast?_eq_get? (b :: l)]
    simp

/-- Appending the empty command is a no-op. -/
theorem addToHistory_empty (app : Model.AppState) : Model.AddToHistory app "" = app := by
  simp [Model.AddToHistory]

/-- Appending the current last entry again is a no-op. -/
theorem addToHistory_dup (app : Model.AppState) (c : String)
    (h : app.commandHistory.commands.getLast? = some c) :
    Model.AddToHistory app c = app := by
  unfold Model.AddToHistory
  by_cases hc : c = ""
  · rw [if_pos hc]
  · rw [if_neg hc, if_pos h]

/-- The stored list after appending a fresh command: append, then evict
the head when the bound is exceeded. -/
theorem addToHistory_new_commands (app : Model.AppState) (c : String)
    (hc : c ≠ "") (hl : app.commandHistory.commands.getLast? ≠ some c) :
    (Model.AddToHistory app c).commandHistory.commands =
      if app.commandHistory.commands.length + 1 > app.commandHistory.maxSize then
        (app.commandHistory.commands ++ [c]).drop 1
      else app.commandHistory.commands ++ [c] := by
  unfold Model.AddToHistory
  rw [if_neg hc, if_neg hl]
  split
  · next h => rw [if_pos (by simpa using h)]
  · next h => rw [if_neg (by simpa using h)]

/-- `AddToHistory` never changes the configured bound. -/
theorem addToHistory_maxSize (app : Model.AppState) (c : String) :
    (Model.AddToHistory app c).commandHistory.maxSize = app.commandHistory.maxSize := by
  unfold Model.AddToHistory
  split
  · rfl
  split
  · rfl
  dsimp only
  split <;> rfl

/-- One append preserves adjacent-distinctness and the size bound. -/
theorem addToHistory_chain_le (app : Model.AppState) (c : String)
    (h1 : app.commandHistory.commands.Chain' (fun a b => a ≠ b))
    (h2 : app.commandHistory.commands.length ≤ app.commandHistory.maxSize) :
    (Model.AddToHistory app c).commandHistory.commands.Chain' (fun a b => a ≠ b) ∧
    (Model.AddToHistory app c).commandHistory.commands.length ≤ app.commandHistory.maxSize := by
  by_cases hc : c = ""
  · rw [hc, addToHistory_empty]; exact ⟨h1, h2⟩
  by_cases hl : app.commandHistory.commands.getLast? = some c
  · rw [addToHistory_dup app c hl]; exact ⟨h1, h2⟩
  rw [addToHistory_new_commands app c hc hl]
  have hch : (app.commandHistory.commands ++ [c]).Chain' (fun a b => a ≠ b) := by
    rw [List.chain'_append]
    refine ⟨h1, List.chain'_singleton _, ?_⟩
    intro x hx y hy
    simp only [List.head?_cons, Option.mem_def, Option.some.injEq] at hy
    subst hy
    intro hxc
    exact hl (by rw [← hxc]; exact hx)
  split
  · next h =>
    refine ⟨List.drop_one _ ▸ hch.tail, ?_⟩
    simp only [List.length_drop, List.length_append, List.length_cons, List.length_nil]
    omega
  · next h =>
    refine ⟨hch, ?_⟩
    simp only [List.length_append, List.length_cons, List.length_nil]
    omega

/-- Folding appends never changes the configured bound. -/
theorem foldl_addToHistory_maxSize (cmds : List String) (app : Model.AppState) :
    (cmds.foldl Model.AddToHistory app).commandHistory.maxSize
      = app.commandHistory.maxSize := by
  induction cmds generalizing app with
  | nil => rfl
  | cons c cmds ih => rw [List.foldl_cons, ih, addToHistory_maxSize]

/-- Folding appends preserves adjacent-distinctness and the size bound. -/
theorem foldl_addToHistory_inv (cmds : List String) (app : Model.AppState)
    (h1 : app.commandHistory.commands.Chain' (fun a b => a ≠ b))
    (h2 : app.commandHistory.commands.length ≤ app.commandHistory.maxSize) :
    (cmds.foldl Model.AddToHistory app).commandHistory.commands.Chain' (fun a b => a ≠ b) ∧
    (cmds.foldl Model.AddToHistory app).commandHistory.commands.length
        ≤ app.commandHistory.maxSize := by
  induction cmds generalizing app with
  | nil => exact ⟨h1, h2⟩
  | cons c cmds ih =>
    rw [List.foldl_cons]
    have h := addToHistory_chain_le app c h1 h2
    have h' := ih (Model.AddToHistory app c) h.1
      (by rw [addToHistory_maxSize]; exact h.2)
    exact ⟨h'.1, by rw [addToHistory_maxSize app c] at h'; exact h'.2⟩

/-! ## Claim C5: history append invariants -/

/-- C5: starting from the empty history, for every sequence of appends:
appending the empty string is a no-op, appending the most recently
stored entry is a no-op, no two adjacent stored entries are equal, the
stored length never exceeds the configured bound, and appending a fresh
distinct entry at the bound evicts exactly the single oldest entry so
the size stays at the bound. -/
theorem claim_C5_history_invariants (app0 : Model.AppState) (cmds : List String)
    (h0 : app0.commandHistory.commands = []) :
    Model.AddToHistory (cmds.foldl Model.AddToHistory app0) ""
        = cmds.foldl Model.AddToHistory app0 ∧
    (∀ c, (cmds.foldl Model.AddToHistory app0).commandHistory.commands.getLast? = some c →
      Model.AddToHistory (cmds.foldl Model.AddToHistory app0) c
          = cmds.foldl Model.AddToHistory app0) ∧
    (cmds.foldl Model.AddToHistory app0).commandHistory.commands.Chain' (fun a b => a ≠ b) ∧
    (cmds.foldl Model.AddToHistory app0).commandHistory.commands.length
        ≤ app0.commandHistory.maxSize ∧
    (∀ c, c ≠ "" →
      (cmds.foldl Model.AddToHistory app0).commandHistory.commands.getLast? ≠ some c →
      (cmds.foldl Model.AddToHistory app0).commandHistory.commands.length
          = app0.commandHistory.maxSize →
      0 < app0.commandHistory.maxSize →
      (Model.AddToHistory (cmds.foldl Model.AddToHistory app0) c).commandHistory.commands
          = (cmds.foldl Model.AddToHistory app0).commandHistory.commands.drop 1 ++ [c] ∧
      (Model.AddToHistory (cmds.foldl Model.AddToHistory app0) c).commandHistory.commands.length
          = app0.commandHistory.maxSize) := by
  have hinv := foldl_addToHistory_inv cmds app0 (by rw [h0]; exact List.chain'_nil)
    (by rw [h0]; exact Nat.zero_le _)
  refine ⟨addToHistory_empty _, fun c hc => addToHistory_dup _ c hc, hinv.1, hinv.2, ?_⟩
  intro c hc hl hlen hpos
  have hmax := foldl_addToHistory_maxSize cmds app0
  have hne : (cmds.foldl Model.AddToHistory app0).commandHistory.commands ≠ [] := by
    intro h
    rw [h] at hlen
    simp at hlen
    omega
  rw [addToHistory_new_commands _ c hc hl, if_pos (by rw [hmax]; omega),
    list_drop_one_append _ c hne]
  refine ⟨rfl, ?_⟩
  simp only [List.length_append, List.length_drop, List.length_cons, List.length_nil]
  omega

/-- C5 witness: with bound 2 and history a, b, appending c evicts a. -/
theorem claim_C5_witness :
    (Model.AddToHistory (["a", "b"].foldl Model.AddToHistory fixtureHistApp)
        "c").commandHistory.commands = ["b", "c"] := by
  have h := claim_C5_history_invariants fixtureHistApp ["a", "b"] rfl
  have h5 := h.2.2.2.2 "c" (by decide) (by decide) (by decide) (by decide)
  rw [h5.1]
  decide

/-! ## Claim C6: history lookup -/

/-- C6: for every history state, lookup at index 0 returns the most
recently stored entry, lookup at index n counts backward from the most
recent entry (it reads the reversed list), and any out-of-range index —
negative or at least the current size — returns the empty string rather
than failing. -/
theorem claim_C6_history_lookup (app : Model.AppState) (i : Int) :
    Model.GetHistoryItem app 0 = (app.commandHistory.commands.getLast?).getD "" ∧
    (∀ k : Nat, k < app.commandHistory.commands.length →
      Model.GetHistoryItem app (k : Int)
        = (app.commandHistory.commands.reverse.get? k).getD "") ∧
    ((i < 0 ∨ (app.commandHistory.commands.length : Int) ≤ i) →
      Model.GetHistoryItem app i = "") := by
  refine ⟨?_, ?_, ?_⟩
  · by_cases hn : app.commandHistory.commands = []
    · unfold Model.GetHistoryItem
      rw [if_pos (by rw [hn]; simp), hn]
      rfl
    · unfold Model.GetHistoryItem
      have hlen : 0 < app.commandHistory.commands.length := List.length_pos.mpr hn
      rw [if_neg (by push_neg; constructor <;> omega)]
      simp only [Int.toNat_zero, Nat.sub_zero]
      rw [list_getLast?_eq_get?]
  · intro k hk
    unfold Model.GetHistoryItem
    rw [if_neg (by push_neg; constructor <;> omega)]
    rw [List.get?_eq_getElem?, List.get?_eq_getElem?, List.getElem?_reverse hk]
    simp
  · intro h
    unfold Model.GetHistoryItem
    rw [if_pos h]

/-- C6 witness: index 0 reads the newest entry y; index 5 is out of
range and reads empty. -/
theorem claim_C6_witness :
    Model.GetHistoryItem fixtureHistApp2 0 = "y" ∧
    Model.GetHistoryItem fixtureHistApp2 5 = "" := by
  refine ⟨(claim_C6_history_lookup fixtureHistApp2 5).1.trans (by decide), ?_⟩
  exact (claim_C6_history_lookup fixtureHistApp2 5).2.2 (by decide)

/-! ## Claim C7: scroll clamping -/

/-- C7 counterexample: with a selected connection whose execution log is
empty, `ScrollOutputUp` applies no upper clamp — the offset lands at 10
while the estimated total renderable line count of the log is 0, so the
offset does not stay within the claimed interval. -/
theorem claim_C7_counterexample :
    (fixtureApp [fixtureState Model.ConnectionStatus.connected none]
        { commands := [], maxSize := 1000 }).getSelected
      = some (fixtureState Model.ConnectionStatus.connected none) ∧
    Model.estimatedTotalLines (fixtureState Model.ConnectionStatus.connected none).executions
      = 0 ∧
    (Model.ScrollOutputUp
        (fixtureApp [fixtureState Model.ConnectionStatus.connected none]
          { commands := [], maxSize := 1000 }) 10).outputScrollOffset = 10 := by
  refine ⟨by decide, rfl, by decide⟩

/-- C7 (amended): after a scroll-up the offset is at most the estimated
total renderable line count of the selected connection's execution log
provided that log is non-empty (with an empty log no upper clamp is
applied); after a scroll-down the offset is at least 0 unconditionally. -/
theorem claim_C7_scroll_clamp_amended (app : Model.AppState) (lines : Int)
    (sel : Model.ConnectionState) :
    (app.getSelected = some sel → sel.executions ≠ [] →
      (Model.ScrollOutputUp app lines).outputScrollOffset
          ≤ (Model.estimatedTotalLines sel.executions : Int)) ∧
    0 ≤ (Model.ScrollOutputDown app lines).outputScrollOffset := by
  constructor
  · intro hsel hne
    unfold Model.ScrollOutputUp
    dsimp only
    have hsel' : ({ app with outputScrollOffset := app.outputScrollOffset + lines }
        : Model.AppState).getSelected = some sel := hsel
    rw [hsel']
    dsimp only
    rw [if_pos (List.length_pos.mpr hne)]
    split
    · next h => exact le_refl _
    · next h => exact le_of_not_lt (fun hlt => h hlt)
  · unfold Model.ScrollOutputDown
    dsimp only
    split
    · next h => exact le_refl 0
    · next h => exact not_lt.mp h

/-- C7 witness: with a one-record log, scrolling up 10 is clamped at the
estimated total and scrolling down keeps the offset non-negative. -/
theorem claim_C7_witness :
    (Model.ScrollOutputUp fixtureScrollApp 10).outputScrollOffset
        ≤ (Model.estimatedTotalLines fixtureStateWithLog.executions : Int) ∧
    0 ≤ (Model.ScrollOutputDown fixtureScrollApp 3).outputScrollOffset := by
  have h := claim_C7_scroll_clamp_amended fixtureScrollApp 10 fixtureStateWithLog
  have h' := claim_C7_scroll_clamp_amended fixtureScrollApp 3 fixtureStateWithLog
  exact ⟨h.1 (by decide) (by decide), h'.2⟩

/-! ## Claim C3: credential-resolution order -/

/-- The append loops of `createAuthMethods` compute the accumulator
followed by the loadable keys in path order. -/
theorem keyMethods_eq (env : Ssh.AuthEnv) (paths : List String) (acc : List Ssh.AuthMethod) :
    Ssh.keyMethods env paths acc
      = acc ++ paths.filterMap
          (fun p => (Ssh.loadPrivateKey env p).map
            (fun s => Ssh.AuthMethod.publicKeys [s])) := by
  induction paths generalizing acc with
  | nil => simp [Ssh.keyMethods]
  | cons p ps ih =>
    have hcons : Ssh.keyMethods env (p :: ps) acc
        = Ssh.keyMethods env ps
            (match Ssh.loadPrivateKey env p with
              | some signer => acc ++ [Ssh.AuthMethod.publicKeys [signer]]
              | none => acc) := rfl
    rw [hcons]
    cases h : Ssh.loadPrivateKey env p with
    | none =>
      dsimp only
      rw [ih acc]
      simp [List.filterMap_cons, h]
    | some s =>
      dsimp only
      rw [ih (acc ++ [Ssh.AuthMethod.publicKeys [s]])]
      simp [List.filterMap_cons, h]

/-- The accumulated method list of `createAuthMethods` is the fixed
concatenation of the four step producers. -/
theorem createAuthMethods_accum (env : Ssh.AuthEnv) (keyPath host : String) :
    Ssh.createAuthMethods env keyPath host
      = (if (Ssh.agentStep env ++ Ssh.explicitStep env keyPath ++
            Ssh.configStep env host ++ Ssh.defaultStep env).length = 0 then
          Except.error "no valid authentication methods found"
        else Except.ok (Ssh.agentStep env ++ Ssh.explicitStep env keyPath ++
            Ssh.configStep env host ++ Ssh.defaultStep env)) := by
  unfold Ssh.createAuthMethods
  dsimp only
  rw [keyMethods_eq, keyMethods_eq]
  have h2 : (if keyPath ≠ "" then
        match Ssh.loadPrivateKey env keyPath with
        | some signer => ([] : List Ssh.AuthMethod) ++ Ssh.getAgentMethods env
            ++ [Ssh.AuthMethod.publicKeys [signer]]
        | none => ([] : List Ssh.AuthMethod) ++ Ssh.getAgentMethods env
      else ([] : List Ssh.AuthMethod) ++ Ssh.getAgentMethods env)
      = Ssh.agentStep env ++ Ssh.explicitStep env keyPath := by
    unfold Ssh.explicitStep Ssh.agentStep
    by_cases hk : keyPath = ""
    · simp [hk]
    · rw [if_pos hk, if_pos hk]
      cases h : Ssh.loadPrivateKey env keyPath <;> simp [h]
  rw [h2]
  unfold Ssh.configStep Ssh.defaultStep
  simp [List.append_assoc]

/-- C3: credential resolution produces candidates in the fixed order
agent, explicit key path (if non-empty and loadable), SSH-config
identity files, default key locations; it fails with the no-credentials
error exactly when all four steps together produced zero candidates; and
individual step failures (unset agent socket, unloadable explicit key,
missing home directory) contribute nothing rather than erroring. -/
theorem claim_C3_auth_resolution_order (env : Ssh.AuthEnv) (keyPath host : String) :
    (Ssh.createAuthMethods env keyPath host
        = Except.error "no valid authentication methods found"
      ↔ Ssh.agentStep env = [] ∧ Ssh.explicitStep env keyPath = [] ∧
        Ssh.configStep env host = [] ∧ Ssh.defaultStep env = []) ∧
    (∀ l, Ssh.createAuthMethods env keyPath host = Except.ok l →
      l = Ssh.agentStep env ++ Ssh.explicitStep env keyPath ++
          Ssh.configStep env host ++ Ssh.defaultStep env ∧ l ≠ []) ∧
    (env.sshAuthSock = "" → Ssh.agentStep env = []) ∧
    (Ssh.loadPrivateKey env keyPath = none → Ssh.explicitStep env keyPath = []) ∧
    (env.homeDir = none → Ssh.configStep env host = [] ∧ Ssh.defaultStep env = []) := by
  have hacc := createAuthMethods_accum env keyPath host
  refine ⟨?_, ?_, ?_, ?_, ?_⟩
  · rw [hacc]
    constructor
    · intro h
      split at h
      · next hlen =>
        rw [List.length_eq_zero] at hlen
        simpa [List.append_eq_nil] using hlen
      · exact absurd h (by simp)
    · intro ⟨h1, h2, h3, h4⟩
      rw [if_pos (by simp [h1, h2, h3, h4])]
  · intro l hl
    rw [hacc] at hl
    split at hl
    · exact absurd hl (by simp)
    · next hlen =>
      obtain rfl : _ = l := Except.ok.inj hl
      exact ⟨rfl, by intro h; rw [h] at hlen; exact hlen rfl⟩
  · intro h
    simp [Ssh.agentStep, Ssh.getAgentMethods, h]
  · intro h
    simp [Ssh.explicitStep, h]
  · intro h
    constructor
    · simp [Ssh.configStep, Ssh.getSSHConfigKeyPaths, h]
    · simp [Ssh.defaultStep, Ssh.getDefaultKeyPaths, h]

/-- C3 witness: with every external source failing, resolution fails
with the no-credentials error. -/
theorem claim_C3_witness :
    Ssh.createAuthMethods fixtureEmptyEnv "" "db.internal"
      = Except.error "no valid authentication methods found" :=
  (claim_C3_auth_resolution_order fixtureEmptyEnv "" "db.internal").1.mpr
    ⟨rfl, rfl, rfl, rfl⟩

/-! ## Matcher helpers for claim C4 -/

/-- Expansion distributes over concatenation. -/
theorem expandStar_append (a b : List Char) :
    Ssh.expandStar (a ++ b) = Ssh.expandStar a ++ Ssh.expandStar b := by
  induction a with
  | nil => rfl
  | cons c cs ih => simp [Ssh.expandStar, ih]

/-- Expansion of a one-element extension on the right. -/
theorem expandStar_concat (t : List Char) (c : Char) :
    Ssh.expandStar (t ++ [c])
      = Ssh.expandStar t ++ (if c = '*' then ['.', '*'] else [c]) := by
  rw [expandStar_append]
  simp [Ssh.expandStar]

/-- The wildcard character survives expansion in both directions. -/
theorem mem_star_expandStar (p : List Char) : '*' ∈ Ssh.expandStar p ↔ '*' ∈ p := by
  induction p with
  | nil => simp [Ssh.expandStar]
  | cons c cs ih =>
    by_cases hc : c = '*'
    · subst hc
      simp [Ssh.expandStar, ih]
    · simp [Ssh.expandStar, hc, ih]

/-- An expanded pattern never starts with the wildcard character. -/
theorem expandStar_head_ne_star (p : List Char) :
    (Ssh.expandStar p).head? ≠ some '*' := by
  cases p with
  | nil => simp [Ssh.expandStar]
  | cons c cs =>
    by_cases hc : c = '*'
    · subst hc
      simp [Ssh.expandStar]
    · simp [Ssh.expandStar, hc]

/-- The expanded pattern starts with `.` `*` exactly when the pattern
starts with a wildcard. -/
theorem prefix_star_iff (p : List Char) :
    ['.', '*'] <+: Ssh.expandStar p ↔ p.head? = some '*' := by
  cases p with
  | nil => simp [Ssh.expandStar]
  | cons c cs =>
    by_cases hc : c = '*'
    · subst hc
      constructor
      · intro _; rfl
      · intro _
        have hx : Ssh.expandStar ('*' :: cs) = '.' :: '*' :: Ssh.expandStar cs := by
          simp [Ssh.expandStar]
        rw [hx]
        exact ⟨Ssh.expandStar cs, rfl⟩
    · constructor
      · intro hpre
        exfalso
        have hx : Ssh.expandStar (c :: cs) = c :: Ssh.expandStar cs := by
          simp [Ssh.expandStar, hc]
        rw [hx, List.cons_prefix_cons] at hpre
        obtain ⟨-, t, ht⟩ := hpre
        have hhd := expandStar_head_ne_star cs
        rw [← ht] at hhd
        simp at hhd
      · intro hh
        rw [List.head?_cons] at hh
        exact absurd (Option.some.inj hh) hc

/-- The expanded pattern ends with `.` `*` exactly when the pattern ends
with a wildcard. -/
theorem suffix_star_iff (p : List Char) :
    ['.', '*'] <:+ Ssh.expandStar p ↔ p.getLast? = some '*' := by
  rcases List.eq_nil_or_concat p with rfl | ⟨t, c, rfl⟩
  · simp [Ssh.expandStar]
  · rw [List.concat_eq_append, expandStar_concat, List.getLast?_concat]
    by_cases hc : c = '*'
    · subst hc
      rw [if_pos rfl]
      simp [List.suffix_append]
    · rw [if_neg hc]
      constructor
      · intro hsuf
        exfalso
        obtain ⟨s, hs⟩ := hsuf
        have h1 : (s ++ ['.', '*']).getLast? = some '*' := by
          rw [show (s ++ ['.', '*'] : List Char) = (s ++ ['.']) ++ ['*'] by simp]
          exact List.getLast?_concat _
        rw [hs, List.getLast?_concat] at h1
        exact hc (Option.some.inj h1)
      · intro hh
        exact absurd (Option.some.inj hh) hc

/-- Star count of a cons. -/
theorem starCount_cons (c : Char) (p : List Char) :
    Ssh.starCount (c :: p) = (if c = '*' then 1 else 0) + Ssh.starCount p := by
  by_cases hc : c = '*' <;> simp [Ssh.starCount, List.filter_cons, hc, Nat.add_comm]

/-- Star count of a concatenation. -/
theorem starCount_append (a b : List Char) :
    Ssh.starCount (a ++ b) = Ssh.starCount a + Ssh.starCount b := by
  simp [Ssh.starCount, List.filter_append]

/-- Star count of the empty pattern. -/
theorem starCount_nil : Ssh.starCount [] = 0 := rfl

/-- A positive star count exhibits a wildcard member. -/
theorem starCount_pos_mem (p : List Char) (h : 0 < Ssh.starCount p) : '*' ∈ p := by
  unfold Ssh.starCount at h
  rw [List.length_pos] at h
  obtain ⟨x, hx⟩ := List.exists_mem_of_ne_nil _ h
  have hm := List.mem_filter.mp hx
  have hx2 : x = '*' := by simpa using hm.2
  exact hx2 ▸ hm.1

/-- Patterns with an interior or multiple wildcards never match a host
that does not itself contain the wildcard character. -/
theorem matchPattern_interior_no_match (p h : List Char)
    (hp : Ssh.interiorOrMultiStar p) (hh : '*' ∉ h) :
    Ssh.matchSSHConfigPattern p h = false := by
  have hpos : 0 < Ssh.starCount p := by
    rcases hp with h2 | ⟨h1, -, -⟩ <;> omega
  have hstar : '*' ∈ p := starCount_pos_mem p hpos
  have hne : p ≠ h := fun he => hh (he ▸ hstar)
  unfold Ssh.matchSSHConfigPattern
  rw [if_neg hne, if_pos hstar]
  dsimp only
  by_cases hpre : (['.', '*'] : List Char) <+: Ssh.expandStar p
  · rw [if_pos (List.isPrefixOf_iff_prefix.mpr hpre)]
    have hhead : p.head? = some '*' := (prefix_star_iff p).mp hpre
    obtain ⟨t, rfl⟩ : ∃ t, p = '*' :: t := by
      cases p with
      | nil => simp at hhead
      | cons a as =>
        rw [List.head?_cons] at hhead
        exact ⟨as, by rw [Option.some.inj hhead]⟩
    rcases hp with h2 | ⟨-, hhd, -⟩
    · have hmem : '*' ∈ t := by
        apply starCount_pos_mem
        rw [starCount_cons, if_pos rfl] at h2
        omega
      have hdrop : (Ssh.expandStar ('*' :: t)).drop 2 = Ssh.expandStar t := by
        simp [Ssh.expandStar]
      rw [hdrop]
      apply Bool.eq_false_iff.mpr
      intro htrue
      exact hh ((List.isSuffixOf_iff_suffix.mp htrue).subset
        ((mem_star_expandStar t).mpr hmem))
    · simp at hhd
  · rw [if_neg (fun hx => hpre (List.isPrefixOf_iff_prefix.mp hx))]
    by_cases hsufq : (['.', '*'] : List Char) <:+ Ssh.expandStar p
    · rw [if_pos (List.isSuffixOf_iff_suffix.mpr hsufq)]
      have hlastq : p.getLast? = some '*' := (suffix_star_iff p).mp hsufq
      obtain ⟨t, rfl⟩ : ∃ t, p = t ++ ['*'] := by
        rcases List.eq_nil_or_concat p with rfl | ⟨t, c, rfl⟩
        · simp at hlastq
        · rw [List.concat_eq_append, List.getLast?_concat] at hlastq
          exact ⟨t, by rw [List.concat_eq_append, Option.some.inj hlastq]⟩
      rcases hp with h2 | ⟨-, -, hlast⟩
      · have hmem : '*' ∈ t := by
          apply starCount_pos_mem
          rw [starCount_append, starCount_cons, if_pos rfl, starCount_nil] at h2
          omega
        have htake : (Ssh.expandStar (t ++ ['*'])).take
            ((Ssh.expandStar (t ++ ['*'])).length - 2) = Ssh.expandStar t := by
          rw [expandStar_concat, if_pos rfl]
          have hl : (Ssh.expandStar t ++ ['.', '*']).length - 2
              = (Ssh.expandStar t).length := by simp
          rw [hl]
          exact List.take_left _ _
        rw [htake]
        apply Bool.eq_false_iff.mpr
        intro htrue
        exact hh ((List.isPrefixOf_iff_prefix.mp htrue).subset
          ((mem_star_expandStar t).mpr hmem))
      · rw [List.getLast?_concat] at hlast
        exact absurd rfl hlast
    · rw [if_neg (fun hx => hsufq (List.isSuffixOf_iff_suffix.mp hx))]

/-! ## Claim C4: host-pattern matcher -/

/-- C4 counterexample: the pattern a*b has an interior wildcard, yet the
matcher returns true for the host a*b (the exact-equality branch fires
before any wildcard handling) — refuting \"patterns with an interior or
multiple wildcards match nothing\". -/
theorem claim_C4_counterexample :
    Ssh.interiorOrMultiStar "a*b".data ∧
    Ssh.matchSSHConfigPattern "a*b".data "a*b".data = true := by
  exact ⟨by decide, by decide⟩

/-- C4 (amended): the five concrete matcher cases hold as stated, and a
pattern with an interior or multiple wildcards matches no host that does
not itself contain the wildcard character (in particular no real host
name); such a pattern can still match a host containing a literal `*`,
e.g. a host equal to the pattern itself. -/
theorem claim_C4_matcher_amended (p h : List Char) :
    Ssh.matchSSHConfigPattern "*.example.com".data "a.example.com".data = true ∧
    Ssh.matchSSHConfigPattern "*.example.com".data "example.com".data = false ∧
    Ssh.matchSSHConfigPattern "192.168.1.*".data "192.168.1.42".data = true ∧
    Ssh.matchSSHConfigPattern "host1".data "host1".data = true ∧
    Ssh.matchSSHConfigPattern "host1".data "host2".data = false ∧
    (Ssh.interiorOrMultiStar p → '*' ∉ h → Ssh.matchSSHConfigPattern p h = false) := by
  refine ⟨by decide, by decide, by decide, by decide, by decide, ?_⟩
  exact matchPattern_interior_no_match p h

/-- C4 witness: the interior-wildcard pattern a*b does not match the
wildcard-free host aXb. -/
theorem claim_C4_witness :
    Ssh.matchSSHConfigPattern "a*b".data "aXb".data = false :=
  (claim_C4_matcher_amended "a*b".data "aXb".data).2.2.2.2.2 (by decide) (by decide)

/-! ## Selection helper -/

/-- A successful `GetSelected` pins the index bounds and the element. -/
theorem getSelected_bounds {app : Model.AppState} {cs : Model.ConnectionState}
    (h : app.getSelected = some cs) :
    0 ≤ app.selectedIndex ∧ app.selectedIndex < (app.connections.length : Int) ∧
    app.connections.get? app.selectedIndex.toNat = some cs := by
  unfold Model.AppState.getSelected at h
  split at h
  · exact absurd h (by simp)
  · next hcond =>
    push_neg at hcond
    exact ⟨hcond.1, hcond.2, h⟩

/-! ## Claim C1: precondition failures of command execution -/

/-- C1 counterexample: running a command while the selected connection
has no session handle produces a local error, but applying the resulting
message moves the connection from Connected to Error — the status is not
unchanged. -/
theorem claim_C1_counterexample :
    List.map (fun c => c.status)
        (fixtureModelFor [fixtureState Model.ConnectionStatus.connected none]).appState.connections
      = [Model.ConnectionStatus.connected] ∧
    ((Main.applyCommandResultMsg
        (Main.executeCommand (fixtureModelFor [fixtureState Model.ConnectionStatus.connected none])
          "ls" (Ssh.RemoteOutcome.ranOk "" "") 0 0 0).1
        (Main.executeCommand (fixtureModelFor [fixtureState Model.ConnectionStatus.connected none])
          "ls" (Ssh.RemoteOutcome.ranOk "" "") 0 0 0).2).appState.connections.map
        (fun c => c.status)) = [Model.ConnectionStatus.error] := by
  exact ⟨by decide, by decide⟩

/-- C1 (amended): when the selected connection's session handle is
absent or its transport is not connected, running a command reports an
error to the caller without contacting the remote host (the outcome does
not depend on the remote at all) and produces no execution record; but
applying the failure message sets the connection's status to Error and
records the error — the status is not left unchanged. -/
theorem claim_C1_precondition_error_amended (m : Main.TUIModel) (cs : Model.ConnectionState)
    (cmd : String) (remote : Ssh.RemoteOutcome) (now now2 dur : Nat)
    (hsel : m.appState.getSelected = some cs)
    (hfail : cs.client = none ∨
      ∃ cl, cs.client = some cl ∧ (cl.connected = false ∨ cl.hasClient = false)) :
    ∃ e,
      (Main.executeCommand m cmd remote now now2 dur).2.err = some e ∧
      (Main.executeCommand m cmd remote now now2 dur).2.execution = none ∧
      (∀ remote', Main.executeCommand m cmd remote' now now2 dur
          = Main.executeCommand m cmd remote now now2 dur) ∧
      (Main.applyCommandResultMsg (Main.executeCommand m cmd remote now now2 dur).1
          (Main.executeCommand m cmd remote now now2 dur).2).appState.connections
        = m.appState.connections.set m.appState.selectedIndex.toNat
            { cs with status := Model.ConnectionStatus.error, lastError := some e,
                      currentExec := none } := by
  obtain ⟨hb1, hb2, hb3⟩ := getSelected_bounds hsel
  have htn : m.appState.selectedIndex.toNat < m.appState.connections.length := by omega
  rcases hfail with hcl | ⟨cl, hcl, hconn⟩
  · refine ⟨"no active connection", ?_⟩
    have hex : Main.executeCommand m cmd remote now now2 dur
        = (m, { index := m.appState.selectedIndex, execution := none,
                err := some "no active connection" }) := by
      simp only [Main.executeCommand, hsel, hcl]
    refine ⟨by rw [hex], by rw [hex], ?_, ?_⟩
    · intro remote'
      rw [hex]
      simp only [Main.executeCommand, hsel, hcl]
    · rw [hex]
      unfold Main.applyCommandResultMsg
      dsimp only
      rw [if_pos ⟨hb1, hb2⟩, hb3]
      rfl
  · refine ⟨"not connected to server", ?_⟩
    have hssh : ∀ r, Ssh.ExecuteCommand cl r dur = Except.error "not connected to server" := by
      intro r
      unfold Ssh.ExecuteCommand
      rcases hconn with h | h
      · rw [if_pos (Or.inl (by simp [h]))]
      · rw [if_pos (Or.inr (by simp [h]))]
    have hex : Main.executeCommand m cmd remote now now2 dur
        = (Main.setConn m m.appState.selectedIndex.toNat
            { cs with currentExec := some (Main.pendingExec cmd now) },
           { index := m.appState.selectedIndex, execution := none,
             err := some "not connected to server" }) := by
      simp only [Main.executeCommand, hsel, hcl, hssh]
    refine ⟨by rw [hex], by rw [hex], ?_, ?_⟩
    · intro remote'
      rw [hex]
      simp only [Main.executeCommand, hsel, hcl, hssh]
    · rw [hex]
      unfold Main.applyCommandResultMsg
      dsimp only [Main.setConn]
      rw [if_pos ⟨hb1, by rw [List.length_set]; exact hb2⟩,
        list_get?_set_self _ _ _ htn]
      dsimp only
      rw [list_set_set_self]

/-- C1 witness: on a Connected connection with no session handle, the
command result carries an error. -/
theorem claim_C1_witness :
    ((Main.executeCommand (fixtureModelFor [fixtureState Model.ConnectionStatus.connected none])
        "ls" (Ssh.RemoteOutcome.ranOk "" "") 0 0 0).2.err).isSome = true := by
  obtain ⟨e, he, -, -, -⟩ := claim_C1_precondition_error_amended
    (fixtureModelFor [fixtureState Model.ConnectionStatus.connected none])
    (fixtureState Model.ConnectionStatus.connected none) "ls" (Ssh.RemoteOutcome.ranOk "" "")
    0 0 0 (by decide) (Or.inl rfl)
  rw [he]
  rfl

/-! ## Claim C2: non-zero remote exit is not an error -/

/-- C2: a command run on a connected session whose remote process exits
with a non-zero code raises no error: the message carries a completed
execution with the remote exit status, applying it appends that record
to the connection's execution log exactly once, clears the
current-execution marker and leaves the connection's status (and every
other field) unchanged. -/
theorem claim_C2_nonzero_exit (m : Main.TUIModel) (cs : Model.ConnectionState)
    (cl : Ssh.SSHClientWrapper) (cmd out errS : String) (code : Int) (now now2 dur : Nat)
    (hsel : m.appState.getSelected = some cs)
    (hcl : cs.client = some cl)
    (hconn : cl.connected = true) (hhc : cl.hasClient = true) (hcode : code ≠ 0) :
    (Main.executeCommand m cmd (Ssh.RemoteOutcome.ranExit code out errS) now now2 dur).2.err
        = none ∧
    (Main.executeCommand m cmd (Ssh.RemoteOutcome.ranExit code out errS) now now2 dur).2.execution
        = some (Main.completedExec cmd now2
            { stdout := out, stderr := errS, exitCode := code, duration := dur }) ∧
    (Main.completedExec cmd now2
        { stdout := out, stderr := errS, exitCode := code, duration := dur }).completed
        = true ∧
    (Main.completedExec cmd now2
        { stdout := out, stderr := errS, exitCode := code, duration := dur }).exitCode
        = code ∧
    (Main.applyCommandResultMsg
        (Main.executeCommand m cmd (Ssh.RemoteOutcome.ranExit code out errS) now now2 dur).1
        (Main.executeCommand m cmd
          (Ssh.RemoteOutcome.ranExit code out errS) now now2 dur).2).appState.connections
      = m.appState.connections.set m.appState.selectedIndex.toNat
          { cs with
              executions := cs.executions ++
                [Main.completedExec cmd now2
                  { stdout := out, stderr := errS, exitCode := code, duration := dur }],
              currentExec := none } := by
  obtain ⟨hb1, hb2, hb3⟩ := getSelected_bounds hsel
  have htn : m.appState.selectedIndex.toNat < m.appState.connections.length := by omega
  have hssh : Ssh.ExecuteCommand cl (Ssh.RemoteOutcome.ranExit code out errS) dur
      = Except.ok { stdout := out, stderr := errS, exitCode := code, duration := dur } := by
    unfold Ssh.ExecuteCommand
    rw [if_neg (by simp [hconn, hhc])]
  have hex : Main.executeCommand m cmd (Ssh.RemoteOutcome.ranExit code out errS) now now2 dur
      = (Main.setConn m m.appState.selectedIndex.toNat
          { cs with currentExec := some (Main.pendingExec cmd now) },
         { index := m.appState.selectedIndex,
           execution := some (Main.completedExec cmd now2
             { stdout := out, stderr := errS, exitCode := code, duration := dur }),
           err := none }) := by
    simp only [Main.executeCommand, hsel, hcl, hssh]
  refine ⟨by rw [hex], by rw [hex], rfl, rfl, ?_⟩
  rw [hex]
  unfold Main.applyCommandResultMsg
  dsimp only [Main.setConn]
  rw [if_pos ⟨hb1, by rw [List.length_set]; exact hb2⟩,
    list_get?_set_self _ _ _ htn]
  dsimp only
  rw [list_set_set_self]
  rfl

/-- C2 witness: a connected fixture running a command that exits 1 —
the record lands in the log completed with exit code 1 and no error. -/
theorem claim_C2_witness :
    (Main.executeCommand
        (fixtureModelFor
          [fixtureState Model.ConnectionStatus.connected
            (some { hasClient := true, connected := true })])
        "false" (Ssh.RemoteOutcome.ranExit 1 "" "") 0 0 0).2.err = none ∧
    (Main.applyCommandResultMsg
        (Main.executeCommand
          (fixtureModelFor
            [fixtureState Model.ConnectionStatus.connected
              (some { hasClient := true, connected := true })])
          "false" (Ssh.RemoteOutcome.ranExit 1 "" "") 0 0 0).1
        (Main.executeCommand
          (fixtureModelFor
            [fixtureState Model.ConnectionStatus.connected
              (some { hasClient := true, connected := true })])
          "false" (Ssh.RemoteOutcome.ranExit 1 "" "") 0 0 0).2).appState.connections
      = [{ fixtureState Model.ConnectionStatus.connected
            (some { hasClient := true, connected := true }) with
          executions := [Main.completedExec "false" 0
            { stdout := "", stderr := "", exitCode := 1, duration := 0 }],
          currentExec := none }] := by
  have h := claim_C2_nonzero_exit
    (fixtureModelFor
      [fixtureState Model.ConnectionStatus.connected
        (some { hasClient := true, connected := true })])
    (fixtureState Model.ConnectionStatus.connected
      (some { hasClient := true, connected := true }))
    { hasClient := true, connected := true }
    "false" "" "" 1 0 0 0 (by decide) rfl rfl rfl (by decide)
  refine ⟨h.1, ?_⟩
  rw [h.2.2.2.2]
  decide
